import Mathlib

/-!
Shallow embedding of `src/Python/original script/train.py`.

Conventions of the embedding:
* Wall-clock times are rational numbers of minutes since midnight
  (`datetime` values in the script differ only by a fixed date).
* All scalar arithmetic of the script (positions in km, speeds in km/h,
  lengths in km, the gap, the tolerance 0.01) is carried out in `ℚ`;
  the script uses floats, but every claim is about the algorithm, which
  is exact-arithmetic here.
* The `positions` dict of the script (string keys, insertion order =
  iteration order of `trains`) is embedded as an ordered association
  list `List (String × ℚ)`; `train_names[i]` together with the lookup
  `positions[train_names[i]]` is the `i`-th entry of that list (the
  hardcoded train names are distinct, so dict lookup by the i-th key is
  exactly the i-th entry).
* The `while` loop is embedded as fuel-indexed recursion on an explicit
  state (trains, clock, emitted warnings); sufficiency of the fuel is
  proved, not assumed.
-/

/-- Raw train descriptor, one entry of the hardcoded `trains` list before
the setup loop runs: name, departure string, speed (km/h), distance (km),
number of cars, car length (m). -/
structure RawTrain where
  name : String
  departure : String
  speed : ℚ
  distance : ℚ
  cars : ℕ
  car_length : ℚ
  deriving DecidableEq, Repr

/-- Train record after the setup loop: `departure_time` and
`arrival_time` in minutes since midnight, `length` in km. -/
structure Train where
  name : String
  departure_time : ℚ
  speed : ℚ
  distance : ℚ
  arrival_time : ℚ
  length : ℚ
  deriving DecidableEq, Repr

instance : Inhabited Train := ⟨⟨"", 0, 0, 0, 0, 0⟩⟩

/-- Split a list of characters at every colon, like `"%H:%M"` matching
locates the literal `:` separators of the departure string. -/
def splitColon : List Char → List (List Char)
  | [] => [[]]
  | c :: cs =>
    let rest := splitColon cs
    if c = ':' then [] :: rest
    else
      match rest with
      | [] => [[c]]
      | g :: gs => (c :: g) :: gs

/-- Parse a run of one or two decimal digits bounded by `bound`, the way
`strptime`'s `%H` (bound 23) and `%M` (bound 59) directives match. -/
def parseField (cs : List Char) (bound : ℕ) : Option ℕ :=
  if cs ≠ [] ∧ cs.length ≤ 2 ∧ cs.all (·.isDigit) then
    let v := cs.foldl (fun a c => a * 10 + (c.toNat - 48)) 0
    if v ≤ bound then some v else none
  else none

/-- The call `datetime.strptime(s, "%H:%M")`, reduced to what it returns: the
time of day in minutes since midnight (always a whole number of
minutes), or `none` when the string does not match the format (which in
the script raises `ValueError`). -/
def parseTime (s : String) : Option ℕ :=
  match splitColon s.data with
  | [h, m] =>
    match parseField h 23, parseField m 59 with
    | some hv, some mv => some (hv * 60 + mv)
    | _, _ => none
  | _ => none

/-- The exceptions the setup loop of the script can raise: `ValueError`
from `strptime` on a malformed departure string, `ZeroDivisionError`
from `distance / speed` when speed is zero. -/
inductive SetupError where
  | valueError : SetupError
  | zeroDivisionError : SetupError
  deriving DecidableEq, Repr

/-- One iteration of the setup loop (lines 18–21 of the script): parse
the departure string, derive `arrival_time = departure_time +
distance/speed` hours and `length = cars * car_length / 1000` km.
The parse happens first (line 19), the division second (line 20). -/
def setupTrain (r : RawTrain) : Except SetupError Train :=
  match parseTime r.departure with
  | none => .error .valueError
  | some dep =>
    if r.speed = 0 then .error .zeroDivisionError
    else
      .ok ⟨r.name, (dep : ℚ), r.speed, r.distance,
        (dep : ℚ) + 60 * (r.distance / r.speed),
        (r.cars : ℚ) * r.car_length / 1000⟩

/-- The setup loop over the whole train list; the first exception
aborts it (and with it the program, before the tick loop starts). -/
def setup : List RawTrain → Except SetupError (List Train)
  | [] => .ok []
  | r :: rs =>
    match setupTrain r with
    | .error e => .error e
    | .ok t =>
      match setup rs with
      | .error e => .error e
      | .ok ts => .ok (t :: ts)

/-- Constant `SAFE_DISTANCE = 100` meters. -/
def SAFE_DISTANCE : ℚ := 100

/-- Constant `CROSSINGS = [60, 120, 180, 220]` km. -/
def CROSSINGS : List ℚ := [60, 120, 180, 220]

/-- The hardcoded `trains` list of the script. -/
def trainsData : List RawTrain :=
  [⟨"A", "08:00", 80, 240, 8, 20⟩,
   ⟨"B", "08:30", 60, 240, 10, 25⟩,
   ⟨"C", "09:00", 100, 240, 6, 18⟩,
   ⟨"D", "09:15", 90, 240, 12, 22⟩]

/-- The `trains` list after the setup loop. -/
def concreteTrains : List Train := (setup trainsData).toOption.getD []

/-- The per-tick `positions` snapshot (lines 31–37): every train with
`departure_time ≤ clock ≤ arrival_time` maps to
`speed * time_elapsed_hours`, in the iteration order of `trains`. -/
def snapshot (trains : List Train) (clock : ℚ) : List (String × ℚ) :=
  trains.filterMap fun tr =>
    if tr.departure_time ≤ clock ∧ clock ≤ tr.arrival_time then
      some (tr.name, tr.speed * ((clock - tr.departure_time) / 60))
    else none

/-- The `near_crossing` generator (line 49): some crossing has both
positions within the literal tolerance `0.01`. -/
def nearCrossing (p1 p2 : ℚ) : Bool :=
  CROSSINGS.any fun c => decide (|p1 - c| < 1 / 100) && decide (|p2 - c| < 1 / 100)

/-- The gap of line 46: `abs(positions[t1] - positions[t2]) -
(trains[i]["length"] + trains[j]["length"])`. Note the script indexes
the FULL `trains` list with `i` and `j`, which are indices into the
active-name list `train_names`; this embedding reproduces that. The
`getD` defaults are never reached on the script's executions, where
`i < j < positions.length ≤ trains.length`. -/
def pairGap (trains : List Train) (positions : List (String × ℚ)) (i j : ℕ) : ℚ :=
  |(positions.getD i ("", 0)).2 - (positions.getD j ("", 0)).2| -
    ((trains.getD i default).length + (trains.getD j default).length)

/-- One emitted warning, with the data the script prints (tick time,
the two names, the gap) plus the loop indices `i < j` and the two
positions, which the emitting iteration holds in locals. -/
structure Warning where
  time : ℚ
  i : ℕ
  j : ℕ
  t1 : String
  t2 : String
  p1 : ℚ
  p2 : ℚ
  gap : ℚ
  deriving DecidableEq, Repr

/-- The `Warning` record that the pair `(i, j)` of the snapshot
`ps` emits at `clock` when the guard of line 50 holds. -/
def mkWarning (trains : List Train) (ps : List (String × ℚ)) (clock : ℚ)
    (i j : ℕ) : Warning :=
  ⟨clock, i, j, (ps.getD i ("", 0)).1, (ps.getD j ("", 0)).1,
    (ps.getD i ("", 0)).2, (ps.getD j ("", 0)).2, pairGap trains ps i j⟩

/-- The guard of line 50: gap converted to meters under the threshold,
and the pair not near a crossing. -/
def warnGuard (trains : List Train) (ps : List (String × ℚ)) (i j : ℕ) : Prop :=
  pairGap trains ps i j * 1000 < SAFE_DISTANCE ∧
    nearCrossing (ps.getD i ("", 0)).2 (ps.getD j ("", 0)).2 = false

instance (trains : List Train) (ps : List (String × ℚ)) (i j : ℕ) :
    Decidable (warnGuard trains ps i j) :=
  inferInstanceAs (Decidable (_ ∧ _))

/-- The inner `for j in range(i + 1, len(train_names))` loop of one tick
(lines 42–52): emit a warning for pair `(i, j)` iff
`gap * 1000 < SAFE_DISTANCE` and not `near_crossing`. -/
def innerLoop (trains : List Train) (positions : List (String × ℚ)) (clock : ℚ)
    (i : ℕ) : List Warning :=
  (List.range' (i + 1) (positions.length - (i + 1))).filterMap fun j =>
    if warnGuard trains positions i j then some (mkWarning trains positions clock i j)
    else none

/-- The double pair loop of one tick (lines 40–52): the outer
`for i in range(len(train_names))` around `innerLoop`. -/
def checkPairs (trains : List Train) (positions : List (String × ℚ)) (clock : ℚ) :
    List Warning :=
  (List.range positions.length).flatMap (innerLoop trains positions clock)

/-- The mutable state of the simulation loop: the `trains` list it reads,
`current_time`, and the warnings printed so far. -/
structure SimState where
  trains : List Train
  clock : ℚ
  out : List Warning
  deriving DecidableEq, Repr

/-- One iteration of the `while` body (lines 31–54): compute the
snapshot, run the pair loop, append its warnings, advance the clock by
the step. -/
def tickStep (stepLen : ℚ) (s : SimState) : SimState :=
  { trains := s.trains
    clock := s.clock + stepLen
    out := s.out ++ checkPairs s.trains (snapshot s.trains s.clock) s.clock }

/-- The `while current_time <= end_time` loop, as fuel-indexed
iteration of `tickStep`; enough fuel makes it the script's loop. -/
def simLoop (endT stepLen : ℚ) : ℕ → SimState → SimState
  | 0, s => s
  | fuel + 1, s =>
    if s.clock ≤ endT then simLoop endT stepLen fuel (tickStep stepLen s) else s

/-- Line 25: `current_time = min(train["departure_time"] for train in trains)`
(line 25); the script's `min` over a nonempty iterable. -/
def startTime : List Train → ℚ
  | [] => 0
  | t :: ts => ts.foldl (fun a tr => min a tr.departure_time) t.departure_time

/-- Line 26: `end_time = max(train["arrival_time"] for train in trains)`. -/
def endTime : List Train → ℚ
  | [] => 0
  | t :: ts => ts.foldl (fun a tr => max a tr.arrival_time) t.arrival_time

/-- Fuel that suffices for the loop: one more tick than fits in
`[startTime, endTime]` at step 1 minute. -/
def fuelFor (trains : List Train) : ℕ :=
  (⌊endTime trains - startTime trains⌋ + 1).toNat

/-- The state just before the loop: clock at the earliest departure,
nothing printed. -/
def initState (trains : List Train) : SimState :=
  ⟨trains, startTime trains, []⟩

/-- The whole simulation on a setup-complete train list: run the loop
with step 1 minute and return the warnings in emission order. -/
def simulate (trains : List Train) : List Warning :=
  (simLoop (endTime trains) 1 (fuelFor trains) (initState trains)).out

/-- The emission order of the script's output: strictly later tick, or
same tick and lexicographically later pair `(i, j)` of the two nested
loops. -/
def warnOrder (a b : Warning) : Prop :=
  a.time < b.time ∨ (a.time = b.time ∧ (a.i < b.i ∨ (a.i = b.i ∧ a.j < b.j)))

/-! ### General-purpose helper lemmas -/

/-- Unfold `|x|` on `ℚ` into an `if`, so that concrete absolute values
evaluate by `norm_num`. -/
theorem abs_eval (x : ℚ) : |x| = if x < 0 then -x else x := by
  rcases lt_or_ge x 0 with h | h
  · rw [abs_of_neg h, if_pos h]
  · rw [abs_of_nonneg h, if_neg (not_lt.mpr h)]

/-! ### Evaluation of the hardcoded configuration -/

/-- The setup loop on the script's train list. -/
theorem setup_trainsData : setup trainsData = .ok
    [⟨"A", 480, 80, 240, 660, 4/25⟩,
     ⟨"B", 510, 60, 240, 750, 1/4⟩,
     ⟨"C", 540, 100, 240, 684, 27/250⟩,
     ⟨"D", 555, 90, 240, 715, 33/125⟩] := by
  simp [setup, trainsData, setupTrain,
    show parseTime "08:00" = some 480 from by decide,
    show parseTime "08:30" = some 510 from by decide,
    show parseTime "09:00" = some 540 from by decide,
    show parseTime "09:15" = some 555 from by decide]
  norm_num

/-- The cooked train list of the script's run. -/
theorem concreteTrains_eval : concreteTrains =
    [⟨"A", 480, 80, 240, 660, 4/25⟩,
     ⟨"B", 510, 60, 240, 750, 1/4⟩,
     ⟨"C", 540, 100, 240, 684, 27/250⟩,
     ⟨"D", 555, 90, 240, 715, 33/125⟩] := by
  rw [concreteTrains, setup_trainsData]
  rfl

/-- Snapshot at 10:45 (clock 645): all four trains are active. -/
theorem snapshot_645 : snapshot concreteTrains 645 =
    [("A", 220), ("B", 135), ("C", 175), ("D", 135)] := by
  rw [concreteTrains_eval]
  norm_num [snapshot, List.filterMap_cons]

/-- Snapshot at 09:45 (clock 585): all four trains are active, B and C
at the same position 75 km. -/
theorem snapshot_585 : snapshot concreteTrains 585 =
    [("A", 140), ("B", 75), ("C", 75), ("D", 45)] := by
  rw [concreteTrains_eval]
  norm_num [snapshot, List.filterMap_cons]

/-- Snapshot at 11:01 (clock 661): train A has arrived (at 11:00), so
the active list is B, C, D and no longer aligns with `trains`. -/
theorem snapshot_661 : snapshot concreteTrains 661 =
    [("B", 151), ("C", 605/3), ("D", 159)] := by
  rw [concreteTrains_eval]
  norm_num [snapshot, List.filterMap_cons]

/-- The pair loop at 10:45 emits exactly one warning, for the pair
(B, D) at identical positions 135 km. -/
theorem checkPairs_645 : checkPairs concreteTrains (snapshot concreteTrains 645) 645 =
    [⟨645, 1, 3, "B", "D", 135, 135, -257/500⟩] := by
  rw [snapshot_645, concreteTrains_eval]
  norm_num [checkPairs, innerLoop, warnGuard, mkWarning, pairGap,
    nearCrossing, CROSSINGS, SAFE_DISTANCE, abs_eval, List.range_succ,
    List.range'_succ, List.range'_zero, List.filterMap_cons]

/-! ### Characterization of the pair loop -/

/-- Membership in the inner `j`-loop's output. -/
theorem mem_innerLoop_iff {trains : List Train} {ps : List (String × ℚ)}
    {clock : ℚ} {i : ℕ} {w : Warning} :
    w ∈ innerLoop trains ps clock i ↔
      ∃ j : ℕ, i < j ∧ j < ps.length ∧ warnGuard trains ps i j ∧
        w = mkWarning trains ps clock i j := by
  simp only [innerLoop, List.mem_filterMap, List.mem_range'_1,
    Option.ite_none_right_eq_some, Option.some.injEq]
  constructor
  · rintro ⟨j, ⟨hle, hlt⟩, hg, he⟩
    exact ⟨j, by omega, by omega, hg, he.symm⟩
  · rintro ⟨j, hij, hj, hg, he⟩
    exact ⟨j, ⟨by omega, by omega⟩, hg, he.symm⟩

/-- Membership in one tick's whole pair loop output. -/
theorem mem_checkPairs_iff {trains : List Train} {ps : List (String × ℚ)}
    {clock : ℚ} {w : Warning} :
    w ∈ checkPairs trains ps clock ↔
      ∃ i j : ℕ, i < j ∧ j < ps.length ∧ warnGuard trains ps i j ∧
        w = mkWarning trains ps clock i j := by
  simp only [checkPairs, List.mem_flatMap, List.mem_range, mem_innerLoop_iff]
  constructor
  · rintro ⟨i, _, j, hij, hj, hg, he⟩
    exact ⟨i, j, hij, hj, hg, he⟩
  · rintro ⟨i, j, hij, hj, hg, he⟩
    exact ⟨i, by omega, j, hij, hj, hg, he⟩

/-- Gap of the pair (i, j) = (1, 2), trains B and C, at clock 585. -/
theorem pairGap_585_BC :
    pairGap concreteTrains (snapshot concreteTrains 585) 1 2 = -179/500 := by
  rw [snapshot_585, concreteTrains_eval]
  norm_num [pairGap, abs_eval]

/-! ### Claim theorems -/

/-- C3: for every tick and every pair of active trains, no warning is
emitted when `near_crossing` holds, regardless of the gap value; and
`near_crossing` is true exactly when some crossing position `c` has both
`|pos(t1) − c|` and `|pos(t2) − c|` below the tolerance `0.01`. -/
theorem C3_near_crossing_suppression :
    (∀ p1 p2 : ℚ, nearCrossing p1 p2 = true ↔
      ∃ c ∈ CROSSINGS, |p1 - c| < 1/100 ∧ |p2 - c| < 1/100) ∧
    ∀ (trains : List Train) (ps : List (String × ℚ)) (clock : ℚ) (w : Warning),
      w ∈ checkPairs trains ps clock → nearCrossing w.p1 w.p2 = false := by
  constructor
  · intro p1 p2
    simp [nearCrossing, List.any_eq_true]
  · intro trains ps clock w hw
    rcases mem_checkPairs_iff.mp hw with ⟨i, j, hij, hj, hg, he⟩
    subst he
    exact hg.2

/-- Witness for C3: at clock 645 the warning for pair (B, D) is
actually emitted, and its positions are not near a crossing. -/
theorem C3_witness :
    (⟨645, 1, 3, "B", "D", 135, 135, -257/500⟩ : Warning) ∈
        checkPairs concreteTrains (snapshot concreteTrains 645) 645 ∧
      nearCrossing 135 135 = false := by
  have hm : (⟨645, 1, 3, "B", "D", 135, 135, -257/500⟩ : Warning) ∈
      checkPairs concreteTrains (snapshot concreteTrains 645) 645 := by
    rw [checkPairs_645]
    exact List.mem_singleton.mpr rfl
  refine ⟨hm, ?_⟩
  have h2 := C3_near_crossing_suppression.2 concreteTrains _ 645 _ hm
  simpa using h2

/-- C5: the active-position snapshot contains exactly the trains with
`departure_time ≤ clock ≤ arrival_time`, each mapped to position
`speed × (clock − departure_time)` with elapsed time in hours
(`(clock − departure_time) / 60` converts minutes to hours). -/
theorem C5_snapshot_members (trains : List Train) (clock : ℚ) (e : String × ℚ) :
    e ∈ snapshot trains clock ↔
      ∃ tr ∈ trains, tr.departure_time ≤ clock ∧ clock ≤ tr.arrival_time ∧
        e = (tr.name, tr.speed * ((clock - tr.departure_time) / 60)) := by
  simp only [snapshot, List.mem_filterMap, Option.ite_none_right_eq_some,
    Option.some.injEq]
  constructor
  · rintro ⟨tr, htr, ⟨h1, h2⟩, he⟩
    exact ⟨tr, htr, h1, h2, he.symm⟩
  · rintro ⟨tr, htr, h1, h2, he⟩
    exact ⟨tr, htr, ⟨h1, h2⟩, he.symm⟩

/-- C6: for a pair of active trains not near a crossing, a warning is
emitted if and only if the gap converted to meters (km × 1000) is
STRICTLY below `SAFE_DISTANCE`; in particular a gap exactly equal to
the threshold does not warn. -/
theorem C6_strict_threshold (trains : List Train) (ps : List (String × ℚ))
    (clock : ℚ) (i j : ℕ) (hij : i < j) (hj : j < ps.length)
    (hnc : nearCrossing (ps.getD i ("", 0)).2 (ps.getD j ("", 0)).2 = false) :
    (∃ w ∈ checkPairs trains ps clock, w.i = i ∧ w.j = j) ↔
      pairGap trains ps i j * 1000 < SAFE_DISTANCE := by
  constructor
  · rintro ⟨w, hw, hwi, hwj⟩
    rcases mem_checkPairs_iff.mp hw with ⟨i', j', hij', hj', hg, he⟩
    subst he
    obtain rfl : i' = i := hwi
    obtain rfl : j' = j := hwj
    exact hg.1
  · intro h
    exact ⟨mkWarning trains ps clock i j,
      mem_checkPairs_iff.mpr ⟨i, j, hij, hj, ⟨h, hnc⟩, rfl⟩, rfl, rfl⟩

/-- Witness for C6: at clock 585 the pair (1, 2) — trains B and C, both
at 75 km, gap −0.358 km — satisfies the hypotheses, and the threshold
test fires a warning. -/
theorem C6_witness :
    ∃ w ∈ checkPairs concreteTrains (snapshot concreteTrains 585) 585,
      w.i = 1 ∧ w.j = 2 := by
  apply (C6_strict_threshold concreteTrains (snapshot concreteTrains 585) 585 1 2
    (by norm_num) (by simp [snapshot_585])
    (by rw [snapshot_585]; norm_num [nearCrossing, CROSSINGS, abs_eval])).mpr
  rw [pairGap_585_BC]
  norm_num [SAFE_DISTANCE]

/-! ### Ordering of the output (for the determinism claim) -/

/-- Every warning of the inner loop carries the tick's time, the outer
index `i`, and an inner index `j > i`. -/
theorem innerLoop_fields {trains : List Train} {ps : List (String × ℚ)}
    {clock : ℚ} {i : ℕ} {w : Warning} (hw : w ∈ innerLoop trains ps clock i) :
    w.time = clock ∧ w.i = i ∧ i < w.j := by
  rcases mem_innerLoop_iff.mp hw with ⟨j, hij, hj, hg, he⟩
  subst he
  exact ⟨rfl, rfl, hij⟩

/-- Within one outer iteration, warnings appear with strictly
increasing inner index `j`. -/
theorem innerLoop_pairwise (trains : List Train) (ps : List (String × ℚ))
    (clock : ℚ) (i : ℕ) :
    (innerLoop trains ps clock i).Pairwise fun a b => a.j < b.j := by
  unfold innerLoop
  refine List.Pairwise.filterMap _ ?_ (List.pairwise_lt_range' _ _)
  intro a a' haa' b hb b' hb'
  rw [Option.mem_def, Option.ite_none_right_eq_some, Option.some.injEq] at hb hb'
  rcases hb with ⟨_, he⟩
  rcases hb' with ⟨_, he'⟩
  subst he
  subst he'
  exact haa'

/-- Within one tick, warnings appear in strictly increasing
lexicographic pair order `(i, j)`. -/
theorem checkPairs_pairwise (trains : List Train) (ps : List (String × ℚ))
    (clock : ℚ) :
    (checkPairs trains ps clock).Pairwise fun a b =>
      a.i < b.i ∨ (a.i = b.i ∧ a.j < b.j) := by
  rw [checkPairs, List.pairwise_flatMap]
  constructor
  · intro i _
    refine (innerLoop_pairwise trains ps clock i).imp_of_mem ?_
    intro a b ha hb hj
    exact Or.inr ⟨(innerLoop_fields ha).2.1.trans (innerLoop_fields hb).2.1.symm, hj⟩
  · refine (List.pairwise_lt_range _).imp ?_
    intro i₁ i₂ h x hx y hy
    exact Or.inl (((innerLoop_fields hx).2.1.trans_lt h).trans_eq
      (innerLoop_fields hy).2.1.symm)

/-- Every warning of one tick carries that tick's clock as timestamp. -/
theorem checkPairs_time {trains : List Train} {ps : List (String × ℚ)}
    {clock : ℚ} {w : Warning} (hw : w ∈ checkPairs trains ps clock) :
    w.time = clock := by
  rcases mem_checkPairs_iff.mp hw with ⟨i, j, _, _, _, he⟩
  subst he
  rfl

/-- The loop preserves sortedness of the accumulated output: ticks are
strictly increasing in time, pairs within a tick in `(i, j)`. -/
theorem simLoop_pairwise (endT stepLen : ℚ) (hstep : 0 < stepLen) :
    ∀ (fuel : ℕ) (s : SimState),
      s.out.Pairwise warnOrder → (∀ w ∈ s.out, w.time < s.clock) →
      (simLoop endT stepLen fuel s).out.Pairwise warnOrder
  | 0, s, h1, _ => h1
  | fuel + 1, s, h1, h2 => by
    rw [simLoop]
    split
    case isTrue h =>
      apply simLoop_pairwise endT stepLen hstep fuel
      · show (s.out ++ checkPairs s.trains (snapshot s.trains s.clock) s.clock).Pairwise _
        rw [List.pairwise_append]
        refine ⟨h1, ?_, ?_⟩
        · refine (checkPairs_pairwise _ _ _).imp_of_mem ?_
          intro a b ha hb hr
          exact Or.inr ⟨(checkPairs_time ha).trans (checkPairs_time hb).symm, hr⟩
        · intro a ha b hb
          exact Or.inl ((h2 a ha).trans_eq (checkPairs_time hb).symm)
      · show ∀ w ∈ s.out ++ checkPairs s.trains (snapshot s.trains s.clock) s.clock,
          w.time < s.clock + stepLen
        intro w hw
        rcases List.mem_append.mp hw with hw | hw
        · exact (h2 w hw).trans (by linarith)
        · exact (checkPairs_time hw).trans_lt (by linarith)
    case isFalse h => exact h1

/-- C4: the simulator is deterministic — two runs on the same input are
the same warning list — and the emitted list is sorted by chronological
tick order and, within a tick, by pair order `i < j` over the active
list (strictly increasing `warnOrder`). -/
theorem C4_deterministic_ordered (trains : List Train) :
    simulate trains = simulate trains ∧ (simulate trains).Pairwise warnOrder := by
  refine ⟨rfl, ?_⟩
  exact simLoop_pairwise _ _ one_pos _ _ (by simp [initState]) (by simp [initState])

/-! ### Frame property of the loop -/

/-- The loop only reads `trains` and only appends to `out`; its clock
trajectory does not depend on the output accumulated so far. -/
theorem simLoop_decompose (endT stepLen : ℚ) :
    ∀ (fuel : ℕ) (trains : List Train) (clock : ℚ) (o : List Warning),
      simLoop endT stepLen fuel ⟨trains, clock, o⟩ =
        ⟨trains, (simLoop endT stepLen fuel ⟨trains, clock, []⟩).clock,
          o ++ (simLoop endT stepLen fuel ⟨trains, clock, []⟩).out⟩
  | 0, trains, clock, o => by simp [simLoop]
  | fuel + 1, trains, clock, o => by
    by_cases h : clock ≤ endT
    · simp only [simLoop, tickStep, h, if_true, List.nil_append]
      rw [simLoop_decompose endT stepLen fuel trains (clock + stepLen)
          (o ++ checkPairs trains (snapshot trains clock) clock),
        simLoop_decompose endT stepLen fuel trains (clock + stepLen)
          (checkPairs trains (snapshot trains clock) clock)]
      simp [List.append_assoc]
    · simp [simLoop, h]

/-- C9: train records are immutable across the entire tick loop — the
`trains` component of the state is returned unchanged — and emitting
warnings only appends to the output: the final clock (hence the loop's
control flow) is the same whatever output was accumulated before, so a
warning never halts the simulation or changes any other state. -/
theorem C9_frame (endT stepLen : ℚ) (fuel : ℕ) (trains : List Train)
    (clock : ℚ) (o : List Warning) :
    (simLoop endT stepLen fuel ⟨trains, clock, o⟩).trains = trains ∧
    (simLoop endT stepLen fuel ⟨trains, clock, o⟩).clock =
      (simLoop endT stepLen fuel ⟨trains, clock, []⟩).clock ∧
    (simLoop endT stepLen fuel ⟨trains, clock, o⟩).out =
      o ++ (simLoop endT stepLen fuel ⟨trains, clock, []⟩).out := by
  rw [simLoop_decompose]
  exact ⟨rfl, rfl, rfl⟩

/-! ### Clock bounds and termination of the loop -/

/-- Once the clock has passed `end_time`, the loop does nothing more,
whatever fuel is left. -/
theorem simLoop_exit (endT stepLen : ℚ) (s : SimState) (h : endT < s.clock) :
    ∀ fuel : ℕ, simLoop endT stepLen fuel s = s
  | 0 => rfl
  | fuel + 1 => by rw [simLoop, if_neg (not_le.mpr h)]

/-- Fuel beyond the number of remaining ticks is irrelevant: the
recursion has really terminated by then. -/
theorem simLoop_stab (endT stepLen : ℚ) :
    ∀ (f g : ℕ) (s : SimState), endT < s.clock + f * stepLen → f ≤ g →
      simLoop endT stepLen g s = simLoop endT stepLen f s
  | 0, g, s, hb, _ => by
    have h : endT < s.clock := by push_cast at hb; linarith
    rw [simLoop_exit endT stepLen s h g, simLoop_exit endT stepLen s h 0]
  | f + 1, g, s, hb, hfg => by
    by_cases h : s.clock ≤ endT
    · obtain ⟨g', rfl⟩ : ∃ g', g = g' + 1 := ⟨g - 1, by omega⟩
      rw [simLoop, simLoop, if_pos h, if_pos h]
      refine simLoop_stab endT stepLen f g' (tickStep stepLen s) ?_ (by omega)
      show endT < s.clock + stepLen + f * stepLen
      push_cast at hb
      linarith
    · rw [simLoop_exit endT stepLen s (not_le.mp h) g,
        simLoop_exit endT stepLen s (not_le.mp h) (f + 1)]

/-- With enough fuel, the loop's final clock is the first grid point
`start + n·step` that lies beyond `end_time`, and every earlier grid
point was a tick with `clock ≤ end_time`. -/
theorem simLoop_final (endT stepLen : ℚ) (hstep : 0 < stepLen) :
    ∀ (f : ℕ) (s : SimState), endT < s.clock + f * stepLen →
      ∃ n : ℕ, (simLoop endT stepLen f s).clock = s.clock + n * stepLen ∧
        endT < s.clock + n * stepLen ∧
        ∀ k : ℕ, k < n → s.clock + k * stepLen ≤ endT
  | 0, s, hb => ⟨0, by simp [simLoop], hb, fun k hk => absurd hk (Nat.not_lt_zero k)⟩
  | f + 1, s, hb => by
    by_cases h : s.clock ≤ endT
    · have hb' : endT < (tickStep stepLen s).clock + f * stepLen := by
        show endT < s.clock + stepLen + f * stepLen
        push_cast at hb
        linarith
      obtain ⟨n, h1, h2, h3⟩ := simLoop_final endT stepLen hstep f (tickStep stepLen s) hb'
      refine ⟨n + 1, ?_, ?_, ?_⟩
      · rw [simLoop, if_pos h, h1]
        show s.clock + stepLen + n * stepLen = s.clock + (n + 1 : ℕ) * stepLen
        push_cast
        ring
      · have : (tickStep stepLen s).clock = s.clock + stepLen := rfl
        rw [this] at h2
        push_cast at h2 ⊢
        linarith
      · intro k hk
        cases k with
        | zero => simpa using h
        | succ k' =>
          have hk' := h3 k' (by omega)
          have : (tickStep stepLen s).clock = s.clock + stepLen := rfl
          rw [this] at hk'
          push_cast at hk' ⊢
          linarith
    · exact ⟨0, by rw [simLoop, if_neg h]; simp,
        by simpa using not_le.mp h, fun k hk => absurd hk (Nat.not_lt_zero k)⟩

/-- A `min`-fold is bounded by its initial accumulator. -/
theorem foldl_min_le_init (f : Train → ℚ) :
    ∀ (ts : List Train) (a : ℚ), ts.foldl (fun b tr => min b (f tr)) a ≤ a
  | [], a => le_refl a
  | t :: ts, a => (foldl_min_le_init f ts (min a (f t))).trans (min_le_left _ _)

/-- A `min`-fold is bounded by each list element's value. -/
theorem foldl_min_le_mem (f : Train → ℚ) :
    ∀ (ts : List Train) (a : ℚ) (t : Train), t ∈ ts →
      ts.foldl (fun b tr => min b (f tr)) a ≤ f t
  | t' :: ts, a, t, ht => by
    rcases List.mem_cons.mp ht with rfl | h
    · exact (foldl_min_le_init f ts (min a (f t))).trans (min_le_right _ _)
    · exact foldl_min_le_mem f ts _ t h

/-- A `min`-fold returns its accumulator or some element's value. -/
theorem foldl_min_attained (f : Train → ℚ) :
    ∀ (ts : List Train) (a : ℚ),
      ts.foldl (fun b tr => min b (f tr)) a = a ∨
        ∃ t ∈ ts, ts.foldl (fun b tr => min b (f tr)) a = f t
  | [], a => Or.inl rfl
  | t :: ts, a => by
    rcases foldl_min_attained f ts (min a (f t)) with h | ⟨t', ht', h⟩
    · rcases min_choice a (f t) with hm | hm
      · exact Or.inl (by rw [List.foldl_cons, h, hm])
      · exact Or.inr ⟨t, List.mem_cons_self t ts, by rw [List.foldl_cons, h, hm]⟩
    · exact Or.inr ⟨t', List.mem_cons_of_mem _ ht', by rw [List.foldl_cons, h]⟩

/-- A `max`-fold dominates its initial accumulator. -/
theorem foldl_max_ge_init (f : Train → ℚ) :
    ∀ (ts : List Train) (a : ℚ), a ≤ ts.foldl (fun b tr => max b (f tr)) a
  | [], a => le_refl a
  | t :: ts, a => (le_max_left _ _).trans (foldl_max_ge_init f ts (max a (f t)))

/-- A `max`-fold dominates each list element's value. -/
theorem foldl_max_ge_mem (f : Train → ℚ) :
    ∀ (ts : List Train) (a : ℚ) (t : Train), t ∈ ts →
      f t ≤ ts.foldl (fun b tr => max b (f tr)) a
  | t' :: ts, a, t, ht => by
    rcases List.mem_cons.mp ht with rfl | h
    · exact (le_max_right _ _).trans (foldl_max_ge_init f ts (max a (f t)))
    · exact foldl_max_ge_mem f ts _ t h

/-- A `max`-fold returns its accumulator or some element's value. -/
theorem foldl_max_attained (f : Train → ℚ) :
    ∀ (ts : List Train) (a : ℚ),
      ts.foldl (fun b tr => max b (f tr)) a = a ∨
        ∃ t ∈ ts, ts.foldl (fun b tr => max b (f tr)) a = f t
  | [], a => Or.inl rfl
  | t :: ts, a => by
    rcases foldl_max_attained f ts (max a (f t)) with h | ⟨t', ht', h⟩
    · rcases max_choice a (f t) with hm | hm
      · exact Or.inl (by rw [List.foldl_cons, h, hm])
      · exact Or.inr ⟨t, List.mem_cons_self t ts, by rw [List.foldl_cons, h, hm]⟩
    · exact Or.inr ⟨t', List.mem_cons_of_mem _ ht', by rw [List.foldl_cons, h]⟩

/-- Function `startTime` is the minimum of the departure times (nonempty list). -/
theorem startTime_spec (trains : List Train) (hne : trains ≠ []) :
    (∀ t ∈ trains, startTime trains ≤ t.departure_time) ∧
      ∃ t ∈ trains, t.departure_time = startTime trains := by
  match trains, hne with
  | t :: ts, _ =>
    constructor
    · intro t' ht'
      rcases List.mem_cons.mp ht' with rfl | h
      · exact foldl_min_le_init Train.departure_time ts t'.departure_time
      · exact foldl_min_le_mem Train.departure_time ts _ t' h
    · rcases foldl_min_attained Train.departure_time ts t.departure_time with h | ⟨t', ht', h⟩
      · exact ⟨t, List.mem_cons_self t ts, h.symm⟩
      · exact ⟨t', List.mem_cons_of_mem _ ht', h.symm⟩

/-- Function `endTime` is the maximum of the arrival times (nonempty list). -/
theorem endTime_spec (trains : List Train) (hne : trains ≠ []) :
    (∀ t ∈ trains, t.arrival_time ≤ endTime trains) ∧
      ∃ t ∈ trains, t.arrival_time = endTime trains := by
  match trains, hne with
  | t :: ts, _ =>
    constructor
    · intro t' ht'
      rcases List.mem_cons.mp ht' with rfl | h
      · exact foldl_max_ge_init Train.arrival_time ts t'.arrival_time
      · exact foldl_max_ge_mem Train.arrival_time ts _ t' h
    · rcases foldl_max_attained Train.arrival_time ts t.arrival_time with h | ⟨t', ht', h⟩
      · exact ⟨t, List.mem_cons_self t ts, h.symm⟩
      · exact ⟨t', List.mem_cons_of_mem _ ht', h.symm⟩

/-- C7: the simulation clock starts at the minimum departure time, ends
at the maximum arrival time, advances monotonically by the fixed step,
evaluates a tick for every grid point `start + k·step ≤ end` (inclusive),
and the loop terminates — extra fuel beyond `N` changes nothing — as
soon as the clock exceeds `end`. -/
theorem C7_clock_bounds_termination (trains : List Train) (stepLen : ℚ)
    (hstep : 0 < stepLen) (hne : trains ≠ []) :
    (∀ t ∈ trains, startTime trains ≤ t.departure_time) ∧
    (∃ t ∈ trains, t.departure_time = startTime trains) ∧
    (∀ t ∈ trains, t.arrival_time ≤ endTime trains) ∧
    (∃ t ∈ trains, t.arrival_time = endTime trains) ∧
    ∃ N n : ℕ,
      (∀ fuel : ℕ, N ≤ fuel →
        simLoop (endTime trains) stepLen fuel (initState trains) =
          simLoop (endTime trains) stepLen N (initState trains)) ∧
      (simLoop (endTime trains) stepLen N (initState trains)).clock =
        startTime trains + n * stepLen ∧
      endTime trains < startTime trains + n * stepLen ∧
      ∀ k : ℕ, k < n → startTime trains + k * stepLen ≤ endTime trains := by
  obtain ⟨hmin, hminat⟩ := startTime_spec trains hne
  obtain ⟨hmax, hmaxat⟩ := endTime_spec trains hne
  refine ⟨hmin, hminat, hmax, hmaxat, ?_⟩
  obtain ⟨N, hN⟩ := exists_nat_gt ((endTime trains - startTime trains) / stepLen)
  have hbound : endTime trains < (initState trains).clock + N * stepLen := by
    have h' := (div_lt_iff₀ hstep).mp hN
    show endTime trains < startTime trains + N * stepLen
    linarith
  obtain ⟨n, h1, h2, h3⟩ :=
    simLoop_final (endTime trains) stepLen hstep N (initState trains) hbound
  exact ⟨N, n,
    fun fuel hf => simLoop_stab (endTime trains) stepLen N fuel _ hbound hf,
    h1, h2, h3⟩

/-- Witness for C7: the script's configuration (four trains, step one
minute) satisfies the hypotheses. -/
theorem C7_witness :
    (0 : ℚ) < 1 ∧ concreteTrains ≠ [] ∧
    ((∀ t ∈ concreteTrains, startTime concreteTrains ≤ t.departure_time) ∧
    (∃ t ∈ concreteTrains, t.departure_time = startTime concreteTrains) ∧
    (∀ t ∈ concreteTrains, t.arrival_time ≤ endTime concreteTrains) ∧
    (∃ t ∈ concreteTrains, t.arrival_time = endTime concreteTrains) ∧
    ∃ N n : ℕ,
      (∀ fuel : ℕ, N ≤ fuel →
        simLoop (endTime concreteTrains) 1 fuel (initState concreteTrains) =
          simLoop (endTime concreteTrains) 1 N (initState concreteTrains)) ∧
      (simLoop (endTime concreteTrains) 1 N (initState concreteTrains)).clock =
        startTime concreteTrains + n * 1 ∧
      endTime concreteTrains < startTime concreteTrains + n * 1 ∧
      ∀ k : ℕ, k < n → startTime concreteTrains + k * 1 ≤ endTime concreteTrains) := by
  have hne : concreteTrains ≠ [] := by rw [concreteTrains_eval]; simp
  exact ⟨by norm_num, hne,
    C7_clock_bounds_termination concreteTrains 1 (by norm_num) hne⟩

/-! ### Setup-derived facts -/

/-- Fields of a successfully set-up train, in terms of its raw
descriptor. -/
theorem setupTrain_ok_fields {r : RawTrain} {t : Train}
    (h : setupTrain r = .ok t) :
    r.speed ≠ 0 ∧ t.speed = r.speed ∧ t.distance = r.distance ∧
      t.arrival_time = t.departure_time + 60 * (r.distance / r.speed) := by
  unfold setupTrain at h
  rcases hp : parseTime r.departure with _ | dep
  · rw [hp] at h
    exact absurd h (by simp)
  · rw [hp] at h
    dsimp only at h
    by_cases hs : r.speed = 0
    · rw [if_pos hs] at h
      exact absurd h (by simp)
    · rw [if_neg hs] at h
      injection h with h'
      subst h'
      exact ⟨hs, rfl, rfl, rfl⟩

/-- C8: for every train built by setup, `arrival_time − departure_time`
equals `distance/speed` exactly (times are in minutes, so dividing the
difference by 60 gives the duration in hours), and hence
`departure_time < arrival_time` whenever speed and distance are
positive. -/
theorem C8_arrival_derivation (r : RawTrain) (t : Train)
    (h : setupTrain r = .ok t) :
    (t.arrival_time - t.departure_time) / 60 = r.distance / r.speed ∧
      (0 < r.speed → 0 < r.distance → t.departure_time < t.arrival_time) := by
  obtain ⟨hs, _, _, ha⟩ := setupTrain_ok_fields h
  constructor
  · rw [ha]
    ring
  · intro h1 h2
    have hq : 0 < r.distance / r.speed := div_pos h2 h1
    rw [ha]
    linarith

/-- Witness for C8: train A of the script. -/
theorem C8_witness :
    setupTrain ⟨"A", "08:00", 80, 240, 8, 20⟩ =
        .ok ⟨"A", 480, 80, 240, 660, 4/25⟩ ∧
      ((660 : ℚ) - 480) / 60 = 240 / 80 ∧
      ((0 : ℚ) < 80 → (0 : ℚ) < 240 → (480 : ℚ) < 660) := by
  have h : setupTrain ⟨"A", "08:00", 80, 240, 8, 20⟩ =
      .ok ⟨"A", 480, 80, 240, 660, 4/25⟩ := by
    simp [setupTrain, show parseTime "08:00" = some 480 from by decide]
    norm_num
  have h2 := C8_arrival_derivation _ _ h
  exact ⟨h, h2.1, h2.2⟩

/-- Every train delivered by the setup loop comes from one raw
descriptor of the input list. -/
theorem setup_mem :
    ∀ (rs : List RawTrain) (ts : List Train), setup rs = .ok ts →
      ∀ t ∈ ts, ∃ r ∈ rs, setupTrain r = .ok t
  | [], ts, h => by
    simp only [setup, Except.ok.injEq] at h
    subst h
    intro t ht
    exact absurd ht (List.not_mem_nil t)
  | r :: rs, ts, h => by
    rcases hst : setupTrain r with e | t₀
    · rw [setup, hst] at h
      exact absurd h (by simp)
    · rcases hsr : setup rs with e | ts₀
      · rw [setup, hst, hsr] at h
        exact absurd h (by simp)
      · rw [setup, hst, hsr] at h
        injection h with h'
        subst h'
        intro t ht
        rcases List.mem_cons.mp ht with rfl | ht'
        · exact ⟨r, List.mem_cons_self r rs, hst⟩
        · obtain ⟨r', hr', hok⟩ := setup_mem rs ts₀ hsr t ht'
          exact ⟨r', List.mem_cons_of_mem _ hr', hok⟩

/-- C10: every active train's computed position lies in `[0, distance]`:
it is never negative and never exceeds the train's route length while
the train is in the snapshot (trains built by setup, positive speeds). -/
theorem C10_position_bounds (rs : List RawTrain) (trains : List Train)
    (clock : ℚ) (tr : Train) (hs : setup rs = .ok trains)
    (hpos : ∀ r ∈ rs, 0 < r.speed) (htr : tr ∈ trains)
    (h1 : tr.departure_time ≤ clock) (h2 : clock ≤ tr.arrival_time) :
    0 ≤ tr.speed * ((clock - tr.departure_time) / 60) ∧
      tr.speed * ((clock - tr.departure_time) / 60) ≤ tr.distance := by
  obtain ⟨r, hr, hok⟩ := setup_mem rs trains hs tr htr
  obtain ⟨hs0, hsp, hdist, ha⟩ := setupTrain_ok_fields hok
  have hsppos : 0 < tr.speed := hsp ▸ hpos r hr
  constructor
  · exact mul_nonneg hsppos.le (div_nonneg (by linarith) (by norm_num))
  · have key : clock - tr.departure_time ≤ 60 * (r.distance / r.speed) := by
      rw [ha] at h2
      linarith
    rw [hsp, hdist]
    have h5 : r.speed * ((clock - tr.departure_time) / 60) ≤
        r.speed * (r.distance / r.speed) := by
      refine mul_le_mul_of_nonneg_left ?_ (hsp ▸ hsppos).le
      linarith
    have hne : r.speed ≠ 0 := hsp ▸ hsppos.ne'
    have h6 : r.speed * (r.distance / r.speed) = r.distance := by
      field_simp
    linarith

/-- Witness for C10: train A at clock 510 (08:30), thirty minutes into
its run, at position 40 km of its 240 km route. -/
theorem C10_witness :
    setup trainsData = .ok
        [⟨"A", 480, 80, 240, 660, 4/25⟩,
         ⟨"B", 510, 60, 240, 750, 1/4⟩,
         ⟨"C", 540, 100, 240, 684, 27/250⟩,
         ⟨"D", 555, 90, 240, 715, 33/125⟩] ∧
      (∀ r ∈ trainsData, 0 < r.speed) ∧
      (⟨"A", 480, 80, 240, 660, 4/25⟩ : Train) ∈
        [(⟨"A", 480, 80, 240, 660, 4/25⟩ : Train),
         ⟨"B", 510, 60, 240, 750, 1/4⟩,
         ⟨"C", 540, 100, 240, 684, 27/250⟩,
         ⟨"D", 555, 90, 240, 715, 33/125⟩] ∧
      ((480 : ℚ) ≤ 510) ∧ ((510 : ℚ) ≤ 660) ∧
      (0 ≤ (80 : ℚ) * ((510 - 480) / 60) ∧
        (80 : ℚ) * ((510 - 480) / 60) ≤ 240) := by
  have hpos : ∀ r ∈ trainsData, 0 < r.speed := by
    intro r hr
    simp only [trainsData, List.mem_cons, List.not_mem_nil, or_false] at hr
    rcases hr with rfl | rfl | rfl | rfl <;> norm_num
  have htr : (⟨"A", 480, 80, 240, 660, 4/25⟩ : Train) ∈
      [(⟨"A", 480, 80, 240, 660, 4/25⟩ : Train),
       ⟨"B", 510, 60, 240, 750, 1/4⟩,
       ⟨"C", 540, 100, 240, 684, 27/250⟩,
       ⟨"D", 555, 90, 240, 715, 33/125⟩] := by simp
  refine ⟨setup_trainsData, hpos, htr, by norm_num, by norm_num, ?_⟩
  exact C10_position_bounds trainsData _ 510 _ setup_trainsData hpos htr
    (by norm_num) (by norm_num)

/-! ### Absence of setup validation -/

/-- One setup-loop iteration succeeds iff the departure string parses
and the speed is nonzero — nothing else is checked. -/
theorem setupTrain_ok_iff (r : RawTrain) :
    (setupTrain r).toOption.isSome = true ↔
      (parseTime r.departure).isSome = true ∧ r.speed ≠ 0 := by
  rcases hp : parseTime r.departure with _ | dep
  · unfold setupTrain
    rw [hp]
    simp [Except.toOption]
  · unfold setupTrain
    rw [hp]
    dsimp only
    by_cases hs : r.speed = 0
    · rw [if_pos hs]
      simp [Except.toOption, hs]
    · rw [if_neg hs]
      simp [Except.toOption, hs]

/-- C2 (amended): the setup loop raises an uncaught exception — hence
aborts before the tick loop — exactly when some train's departure
string fails `strptime` (`ValueError`) or some train's speed is zero
(`ZeroDivisionError` in `distance / speed`); it performs no other
validation: negative speeds and non-positive distances are accepted,
and no `ConfigError` naming train and field exists anywhere. -/
theorem C2_setup_success_iff (rs : List RawTrain) :
    (setup rs).toOption.isSome = true ↔
      ∀ r ∈ rs, (parseTime r.departure).isSome = true ∧ r.speed ≠ 0 := by
  induction rs with
  | nil => simp [setup, Except.toOption]
  | cons r rs ih =>
    rw [List.forall_mem_cons, ← ih, ← setupTrain_ok_iff r]
    rcases hst : setupTrain r with e | t <;> rcases hsr : setup rs with e' | ts <;>
      simp [setup, hst, hsr, Except.toOption]

/-- Counterexample to C2 as stated: a train with negative (hence
non-positive) speed passes setup without any error. -/
theorem C2_counterexample :
    (-50 : ℚ) < 0 ∧
      (setup [⟨"X", "08:00", -50, 240, 8, 20⟩]).toOption.isSome = true := by
  refine ⟨by norm_num, ?_⟩
  norm_num [setup, setupTrain, Except.toOption,
    show parseTime "08:00" = some 480 from by decide]

/-! ### The pairwise-gap length lookup -/

/-- C1 fails on the code: at clock 661 (11:01) train A has arrived, so
the active list is `[B, C, D]`. For the pair `(i, j) = (0, 1)` — trains
B and C — the script computes the gap with `trains[0].length` and
`trains[1].length`, i.e. the lengths of A (4/25 km) and B (1/4 km),
because it indexes the full train list with indices of the active list;
the claim's value, using the lengths of B and C themselves, differs. -/
theorem C1_gap_uses_wrong_lengths :
    snapshot concreteTrains 661 = [("B", 151), ("C", 605/3), ("D", 159)] ∧
    (concreteTrains.getD 0 default).name = "A" ∧
    (concreteTrains.getD 1 default).name = "B" ∧
    (concreteTrains.getD 2 default).name = "C" ∧
    pairGap concreteTrains (snapshot concreteTrains 661) 0 1 =
      |(151 : ℚ) - 605/3| -
        ((concreteTrains.getD 0 default).length +
          (concreteTrains.getD 1 default).length) ∧
    pairGap concreteTrains (snapshot concreteTrains 661) 0 1 ≠
      |(151 : ℚ) - 605/3| -
        ((concreteTrains.getD 1 default).length +
          (concreteTrains.getD 2 default).length) := by
  refine ⟨snapshot_661, ?_, ?_, ?_, ?_, ?_⟩
  · rw [concreteTrains_eval]
    rfl
  · rw [concreteTrains_eval]
    rfl
  · rw [concreteTrains_eval]
    rfl
  · rw [snapshot_661, concreteTrains_eval]
    norm_num [pairGap, abs_eval]
  · rw [snapshot_661, concreteTrains_eval]
    norm_num [pairGap, abs_eval]
